import Mathlib

set_option maxRecDepth 10000

/-!
# Verification of the cransubs-server crawl-and-cache snapshot engine

Shallow embedding of `src/main.rs` and `src/snapshot.rs`.

Conventions of the embedding:
* `SystemTime` in the cache module (`main.rs`) is modelled as `Nat`
  nanoseconds since `UNIX_EPOCH` (the model's origin `0`); Rust's
  `SystemTime::duration_since` returns an error when the argument is later
  than the receiver, and `.expect(..)` turns that error into a panic, which
  the model renders as `Option.none`.
* `chrono::DateTime<Utc>` instants in the snapshot module are modelled as
  `Int` milliseconds since the epoch (`Duration::num_milliseconds` is exact
  at this granularity).
* Rust strings are modelled as `List Char` (all the strings the program
  slices are ASCII, so byte indices and character indices coincide).
* Fallible Rust code (`Result`) becomes `Except`/`Option`; a Rust panic is
  a distinguished failure that the surrounding model propagates.
-/

/-! ## Data model (`snapshot.rs` lines 22-40) -/

/-- Embeds `struct Submission` (snapshot.rs:24-32).  Timestamps are `Int`
milliseconds since the Unix epoch. -/
structure Submission where
  request_time : Int
  folder : List Char
  file_time : Int
  file_bytes : Nat
  pkg_name : List Char
  pkg_version : List Char
deriving DecidableEq

/-- Embeds `struct Snapshot` (snapshot.rs:36-40). -/
structure Snapshot where
  capture_time : Int
  capture_duration : Int
  submissions : List Submission
deriving DecidableEq

/-- Embeds `Snapshot::new()` (snapshot.rs:43-49); `now` is the value of
`Utc::now()` at construction time. -/
def snapshotNew (now : Int) : Snapshot :=
  { capture_time := now, capture_duration := 0, submissions := [] }

/-! ## TTL cache (`main.rs`) -/

/-- Embeds `static TIMEOUT_CACHE_SECONDS: u64 = 60*10` (main.rs:14). -/
def TIMEOUT_CACHE_SECONDS : Nat := 60 * 10

/-- Embeds `struct SnapshotContainer` (main.rs:19-22). -/
structure SnapshotContainer where
  update_interval : Nat
  snapshot : Snapshot
deriving DecidableEq

/-- Embeds `struct Cache` (main.rs:24-27).  `last_update` is a `SystemTime`,
modelled as `Nat` nanoseconds since the Unix epoch. -/
structure Cache where
  last_update : Nat
  data : SnapshotContainer
deriving DecidableEq

/-- The observable `println!` events of the `snap` handler (main.rs:66,71,74),
modelling the logging channel. -/
inductive LogEvent where
  | updateCache
  | useCached
  | captureError
deriving DecidableEq

/-- Embeds `SystemTime::duration_since`: `now.duration_since(earlier)` errors
(`none`) exactly when `earlier` is later than `now`; otherwise it yields the
difference (here in nanoseconds). -/
def duration_since (now earlier : Nat) : Option Nat :=
  if now < earlier then none else some (now - earlier)

/-- Embeds the `snap` route handler (main.rs:53-79).

Inputs: the cache state, the value `now` read from `SystemTime::now()`, and
the outcome of `snapshot::Snapshot::capture()` on the stale path
(`some s` for `Ok(s)`, `none` for `Err(..)`); the capture outcome is a
parameter because the real capture performs network I/O.

Output: `none` models the `.expect("Time went backwards")` panic; otherwise
`some (cache', returned container, log)` gives the post-state, the container
serialized back to the caller (`cache.data.read().await.clone()`), and the
`println!` events in order.  `duration.as_secs()` is the truncating division
by `10^9`. -/
def snap (cache : Cache) (now : Nat) (captureResult : Option Snapshot) :
    Option (Cache × SnapshotContainer × List LogEvent) :=
  match duration_since now cache.last_update with
  | none => none
  | some d =>
    if d / 1000000000 > TIMEOUT_CACHE_SECONDS then
      match captureResult with
      | some s =>
        let c : Cache := { last_update := now,
                           data := { cache.data with snapshot := s } }
        some (c, c.data, [.updateCache])
      | none =>
        let c : Cache := { last_update := now, data := cache.data }
        some (c, c.data, [.updateCache, .captureError])
    else
      some (cache, cache.data, [.useCached])

/-- Embeds the cache constructed in `rocket()` (main.rs:92-98):
`last_update` starts at `UNIX_EPOCH` (model origin `0`) and the stored
snapshot is the `Snapshot::new()` placeholder; `boot` is the value of
`Utc::now()` when the placeholder is built. -/
def rocketCache (boot : Int) : Cache :=
  { last_update := 0,
    data := { update_interval := TIMEOUT_CACHE_SECONDS,
              snapshot := snapshotNew boot } }

/-! ## Civil calendar arithmetic

The snapshot module manipulates `chrono` datetimes.  `chrono` is an external
library; the functions below model the proleptic-Gregorian calendar
arithmetic it performs, for instants from 1970-01-01 to 9999-12-31 (the
range this development quantifies over).  Days count from 1970-01-01. -/

/-- Gregorian leap-year rule. -/
def isLeap (y : Nat) : Bool :=
  (y % 4 == 0 && y % 100 != 0) || y % 400 == 0

/-- Number of days in year `y`. -/
def daysInYear (y : Nat) : Nat :=
  if isLeap y then 366 else 365

/-- Number of days in month `m` (1-based) of year with leap flag `leap`. -/
def monthLen (leap : Bool) (m : Nat) : Nat :=
  match m with
  | 1 => 31
  | 2 => if leap then 29 else 28
  | 3 => 31
  | 4 => 30
  | 5 => 31
  | 6 => 30
  | 7 => 31
  | 8 => 31
  | 9 => 30
  | 10 => 31
  | 11 => 30
  | 12 => 31
  | _ => 31

/-- Days in the months strictly before month `m` (1-based). -/
def monthCumul (leap : Bool) : Nat → Nat
  | 0 => 0
  | m + 1 => if m = 0 then 0 else monthCumul leap m + monthLen leap m

/-- Number of leap years `k` with `0 ≤ k < y` (year 0 counted as leap). -/
def leapsBefore (y : Nat) : Nat :=
  (y + 3) / 4 - (y + 99) / 100 + (y + 399) / 400

/-- Days from 0000-01-01 to `y`-01-01 in the proleptic Gregorian
calendar. -/
def daysUpTo (y : Nat) : Nat :=
  365 * y + leapsBefore y

/-- Days from 1970-01-01 to the start of year `y` (0 for `y ≤ 1970`). -/
def daysToYear (y : Nat) : Nat :=
  if y ≤ 1970 then 0 else daysUpTo y - daysUpTo 1970

/-- Day count (from 1970-01-01) of the civil date `y-m-d` (month and day
1-based). -/
def daysFromCivil (y m d : Nat) : Nat :=
  daysToYear y + monthCumul (isLeap y) m + (d - 1)

/-- Year-finding loop: starting from year `y` with `d` days remaining,
subtract whole years while they fit.  Fuel-driven so that it reduces in the
kernel; `daysFromCivilDays` supplies sufficient fuel. -/
def yearFromDays : Nat → Nat → Nat → Nat × Nat
  | 0, y, d => (y, d)
  | fuel + 1, y, d =>
    if d < daysInYear y then (y, d)
    else yearFromDays fuel (y + 1) (d - daysInYear y)

/-- Month-finding loop inside one year: `doy` is the remaining 0-based day
offset and `m` the current 1-based month. -/
def monthLoop (leap : Bool) : Nat → Nat → Nat → Nat × Nat
  | 0, doy, m => (m, doy + 1)
  | fuel + 1, doy, m =>
    if doy < monthLen leap m ∨ m = 12 then (m, doy + 1)
    else monthLoop leap fuel (doy - monthLen leap m) (m + 1)

/-- Month and (1-based) day of a 0-based day of year. -/
def monthFromDoy (leap : Bool) (doy : Nat) : Nat × Nat :=
  monthLoop leap 12 doy 1

/-- Civil date `(y, m, d)` of a day count from 1970-01-01. -/
def civilFromDays (days : Nat) : Nat × Nat × Nat :=
  let yd := yearFromDays (days / 365 + 1) 1970 days
  let md := monthFromDoy (isLeap yd.1) yd.2
  (yd.1, md.1, md.2)

/-- Civil datetime at second precision, the model of `chrono`'s
`NaiveDateTime`. -/
structure CivilTime where
  year : Nat
  month : Nat
  day : Nat
  hour : Nat
  minute : Nat
  second : Nat
deriving DecidableEq

/-- Civil datetime of a (nonnegative) count of seconds since the epoch. -/
def civilOfSecs (t : Nat) : CivilTime :=
  let ymd := civilFromDays (t / 86400)
  let sod := t % 86400
  { year := ymd.1, month := ymd.2.1, day := ymd.2.2,
    hour := sod / 3600, minute := sod % 3600 / 60, second := sod % 60 }

/-- Seconds since the epoch of a civil datetime (the local wall-clock line
of the naive datetime). -/
def secsOfCivil (c : CivilTime) : Nat :=
  daysFromCivil c.year c.month c.day * 86400 +
    c.hour * 3600 + c.minute * 60 + c.second

/-! ## The Europe/Vienna time zone

Modelled from `chrono_tz::Europe::Vienna` (external tzdata): since 1996
Austria follows the EU rule — daylight saving is in effect from the last
Sunday of March, 01:00 UTC, to the last Sunday of October, 01:00 UTC;
standard offset UTC+1, summer offset UTC+2.  The model is faithful for
instants from 1996 onwards (tzdata projects the rule forward), which covers
all witnesses and counterexamples below. -/

/-- Day of week of a day count (0 = Sunday); 1970-01-01 was a Thursday. -/
def dayOfWeek (days : Nat) : Nat :=
  (days + 4) % 7

/-- Day of month of the last Sunday of March of year `y`. -/
def lastSundayOfMarch (y : Nat) : Nat :=
  31 - dayOfWeek (daysFromCivil y 3 31)

/-- Day of month of the last Sunday of October of year `y`. -/
def lastSundayOfOctober (y : Nat) : Nat :=
  31 - dayOfWeek (daysFromCivil y 10 31)

/-- UTC instant (seconds) at which DST starts in year `y` (01:00 UTC). -/
def dstStartUtc (y : Nat) : Nat :=
  daysFromCivil y 3 (lastSundayOfMarch y) * 86400 + 3600

/-- UTC instant (seconds) at which DST ends in year `y` (01:00 UTC). -/
def dstEndUtc (y : Nat) : Nat :=
  daysFromCivil y 10 (lastSundayOfOctober y) * 86400 + 3600

/-- Whether DST is in effect at UTC instant `u` (seconds). -/
def dstActive (u : Nat) : Bool :=
  let y := (civilFromDays (u / 86400)).1
  dstStartUtc y ≤ u && u < dstEndUtc y

/-- UTC offset (seconds) of Europe/Vienna at UTC instant `u`. -/
def viennaOffset (u : Nat) : Nat :=
  if dstActive u then 7200 else 3600

/-- Model of `chrono::LocalResult` (the result of interpreting a local
wall-clock time in a zone). -/
inductive LocalRes where
  | lrNone
  | lrSingle (u : Nat)
  | lrAmbiguous (u1 u2 : Nat)
deriving DecidableEq

/-- Model of `Tz::from_local_datetime` for Europe/Vienna: `L` is the local
wall-clock line in seconds (`secsOfCivil` of the naive datetime).  A
candidate instant is valid when the zone's offset at that instant maps the
instant back to the given local time.  Both candidates valid = fold
(ambiguous, earlier instant first); neither = gap (nonexistent). -/
def viennaFromLocal (L : Nat) : LocalRes :=
  if viennaOffset (L - 3600) = 3600 ∧ viennaOffset (L - 7200) = 7200 then
    .lrAmbiguous (L - 7200) (L - 3600)
  else if viennaOffset (L - 3600) = 3600 then .lrSingle (L - 3600)
  else if viennaOffset (L - 7200) = 7200 then .lrSingle (L - 7200)
  else .lrNone

/-- The nonexistent-local-time (spring-forward gap) predicate: neither
candidate instant is consistent. -/
def viennaGap (L : Nat) : Prop :=
  viennaOffset (L - 3600) ≠ 3600 ∧ viennaOffset (L - 7200) ≠ 7200

instance (L : Nat) : Decidable (viennaGap L) := by
  unfold viennaGap
  infer_instance

/-- The ambiguous-local-time (fall-back fold) predicate: both candidate
instants are consistent. -/
def viennaFold (L : Nat) : Prop :=
  viennaOffset (L - 3600) = 3600 ∧ viennaOffset (L - 7200) = 7200

instance (L : Nat) : Decidable (viennaFold L) := by
  unfold viennaFold
  infer_instance

/-- The local wall-clock line (seconds) that the timezone fix asks Vienna
to interpret for input `t` (milliseconds): the code turns the `SystemTime`
into a UTC datetime (`wrong_dt`), rebuilds the naive civil datetime from
its components (dropping sub-second precision, per `.and_hms(..)`), and that
naive datetime is the wall-clock line handed to `from_local_datetime`. -/
def viennaLocalLine (t : Nat) : Nat :=
  secsOfCivil (civilOfSecs (t / 1000))

/-- Model of `chrono::LocalResult::unwrap()`: returns the single unique
conversion result; panics — modelled as `none` — on both `None` (gap) and
`Ambiguous` (fold). -/
def LocalRes.unwrap : LocalRes → Option Nat
  | .lrSingle u => some u
  | .lrNone => none
  | .lrAmbiguous _ _ => none

/-- Embeds `local_systemtime_fix_timezone` (snapshot.rs:56-68).  The input
`SystemTime` is `Nat` milliseconds since the epoch.  The code reinterprets
the naive civil datetime of the input (`viennaLocalLine`) as a *local* time
in Vienna (`from_local_datetime`), unwraps the `LocalResult` (panicking on
gap and fold), and converts back to UTC (`with_timezone(&Utc)`); the result
is returned in milliseconds. -/
def local_systemtime_fix_timezone (t : Nat) : Option Int :=
  ((viennaFromLocal (viennaLocalLine t)).unwrap).map (fun u => (u : Int) * 1000)

/-! ## Entry normalization (`snapshot.rs` lines 13-20, 70-88) -/

/-- Embeds `static CRAN_ROOT: &str = "/incoming"` (snapshot.rs:14). -/
def CRAN_ROOT : List Char := "/incoming".toList

/-- The literal `"[unknown]"` fallback (snapshot.rs:82-83). -/
def UNKNOWN : List Char := "[unknown]".toList

/-- The kind of a remote listing entry (`suppaftp::list::File`'s file
type). -/
inductive EntryKind where
  | file
  | directory
  | symlink
deriving DecidableEq

/-- Embeds the fields of `suppaftp::list::File` that the program reads:
kind, `name()`, `size()`, and `modified()` (a `SystemTime`, modelled as
`Nat` milliseconds since the epoch). -/
structure FtpFile where
  kind : EntryKind
  name : List Char
  size : Nat
  modified : Nat
deriving DecidableEq

/-- Strip the suffix `".tar.gz"`, if present. -/
def stripTarGz (name : List Char) : Option (List Char) :=
  if 7 ≤ name.length ∧ name.drop (name.length - 7) = ".tar.gz".toList then
    some (name.take (name.length - 7))
  else none

/-- Largest index `p` with `1 ≤ p ≤ start` holding an underscore. -/
def findLastUS (stem : List Char) : Nat → Option Nat
  | 0 => none
  | p + 1 =>
    if stem.getD (p + 1) ' ' = '_' then some (p + 1) else findLastUS stem p

/-- Modelled from the `regex` crate: the anchored pattern
`^(.+)_(.+)\.tar\.gz$` of `RE_PACKAGE_FILE` (snapshot.rs:19) with the
crate's leftmost-first (greedy) capture semantics.  `.` never matches a
newline, so a name containing `'\n'` cannot match; otherwise the name must
end in the literal `".tar.gz"` (anchored by `$`) and the greedy `(.+)` of
group 1 extends to the *last* underscore of the remaining stem that leaves
both groups nonempty.  On a match both groups are present; the `Option`s
around them model `Captures::get`. -/
def regexCaptures (name : List Char) :
    Option (Option (List Char) × Option (List Char)) :=
  if name.contains '\n' then none
  else
    match stripTarGz name with
    | none => none
    | some stem =>
      match findLastUS stem (stem.length - 2) with
      | none => none
      | some p => some (some (stem.take p), some (stem.drop (p + 1)))

/-- The folder-slicing expression
`folder[(CRAN_ROOT.len() + 1).min(folder.len())..]` (snapshot.rs:78). -/
def folderStrip (folder : List Char) : List Char :=
  folder.drop (min (CRAN_ROOT.length + 1) folder.length)

/-- Embeds `create_entry` (snapshot.rs:70-88).  Returns
`Except.error ()` when the timezone-correction `.unwrap()` inside the
`Submission` literal panics; otherwise `.ok none` for a skipped entry and
`.ok (some submission)` for a produced one. -/
def create_entry (ftp_file : FtpFile) (folder : List Char)
    (request_time : Int) : Except Unit (Option Submission) :=
  if ftp_file.kind ≠ EntryKind.file then .ok none
  else
    match regexCaptures ftp_file.name with
    | some caps =>
      match local_systemtime_fix_timezone ftp_file.modified with
      | none => .error ()
      | some ft =>
        .ok (some { request_time := request_time,
                    folder := folderStrip folder,
                    file_time := ft,
                    file_bytes := ftp_file.size,
                    pkg_name := caps.1.getD UNKNOWN,
                    pkg_version := caps.2.getD UNKNOWN })
    | none => .ok none

/-! ## Tree walker and snapshot capture (`snapshot.rs` lines 90-132) -/

/-- Embeds `let max_depth: u32 = 2` (snapshot.rs:105). -/
def max_depth : Nat := 2

/-- Model of `DateTime::round_subsecs(0)` on an `Int`-millisecond instant:
round to the nearest whole second (halves away from the past). -/
def round_subsecs0 (t : Int) : Int :=
  (t + 500).fdiv 1000 * 1000

/-- Failures that end the traversal loop. -/
inductive WalkErr where
  | listErr
  | tzPanic
  | fuelOut
deriving DecidableEq

/-- Failures of a whole capture attempt. -/
inductive CapErr where
  | connectErr
  | loginErr
  | walkErr (e : WalkErr)
deriving DecidableEq

/-- The body of the `for ftp_res in ftp_stream.list(..)` loop
(snapshot.rs:112-124), processing one directory's decoded entries in order:
a subdirectory is pushed onto the work list only when `depth < max_depth`;
a regular file goes through `create_entry` (whose panic propagates); a
symlink is ignored.  Returns the extended work list and submissions. -/
def processEntries (depth : Nat) (ftp_path : List Char) (request_time : Int) :
    List FtpFile → List (Nat × List Char) → List Submission →
    Except Unit (List (Nat × List Char) × List Submission)
  | [], stack, subs => .ok (stack, subs)
  | e :: rest, stack, subs =>
    match e.kind with
    | .directory =>
      if depth < max_depth then
        processEntries depth ftp_path request_time rest
          ((depth + 1, ftp_path ++ '/' :: e.name) :: stack) subs
      else
        processEntries depth ftp_path request_time rest stack subs
    | .file =>
      match create_entry e ftp_path request_time with
      | .error _ => .error ()
      | .ok none => processEntries depth ftp_path request_time rest stack subs
      | .ok (some sub) =>
        processEntries depth ftp_path request_time rest stack (subs ++ [sub])
    | .symlink => processEntries depth ftp_path request_time rest stack subs

/-- The traversal loop `while let Some((depth, ftp_path)) =
folder_stack.pop()` (snapshot.rs:108-125).  `listFn` models
`ftp_stream.list(Some(path))` combined with the per-record
`File::from_str` decoding (either failure aborts the capture through `?`);
`clock` models the successive `Utc::now()` readings in milliseconds
(reading `i` = the `i`-th call in program order) and `tick` is the next
unconsumed reading; `fuel` is a model artifact bounding the loop.  The top
of the work list is the head of the `stack` list (the Rust `Vec` pops from
its end).  The first component of the result records every directory the
loop called `list` on, with its depth; the second is the loop's outcome:
the accumulated submissions and the next clock tick. -/
def walkLoop (listFn : List Char → Except Unit (List FtpFile))
    (clock : Nat → Int) :
    Nat → List (Nat × List Char) → Nat → List Submission →
    List (Nat × List Char) →
    List (Nat × List Char) × Except WalkErr (List Submission × Nat)
  | 0, stack, tick, subs, listed =>
    match stack with
    | [] => (listed, .ok (subs, tick))
    | _ => (listed, .error .fuelOut)
  | fuel + 1, stack, tick, subs, listed =>
    match stack with
    | [] => (listed, .ok (subs, tick))
    | (depth, ftp_path) :: rest =>
      match listFn ftp_path with
      | .error _ => (listed ++ [(depth, ftp_path)], .error .listErr)
      | .ok entries =>
        match processEntries depth ftp_path (round_subsecs0 (clock tick))
            entries rest subs with
        | .error _ => (listed ++ [(depth, ftp_path)], .error .tzPanic)
        | .ok (stack2, subs2) =>
          walkLoop listFn clock fuel stack2 (tick + 1) subs2
            (listed ++ [(depth, ftp_path)])

/-- Embeds `capture_snapshot` (snapshot.rs:90-132) with the external
effects as parameters: `connectOk` and `loginOk` model the `?` on
`FtpStream::connect` and `login`; `listFn` and `clock` as in `walkLoop`
(clock reading 0 is `let capture_time = Utc::now()`, taken after the
login; the loop consumes readings from 1; one final reading computes
`capture_duration` in milliseconds).  Returns the assembled snapshot
together with the index of that final reading. -/
def capture_snapshot_aux (connectOk loginOk : Bool)
    (listFn : List Char → Except Unit (List FtpFile)) (clock : Nat → Int)
    (fuel : Nat) : Except CapErr (Snapshot × Nat) :=
  if connectOk = false then .error .connectErr
  else if loginOk = false then .error .loginErr
  else
    match walkLoop listFn clock fuel [(0, CRAN_ROOT)] 1 [] [] with
    | (_, .ok (subs, tickEnd)) =>
      .ok ({ capture_time := round_subsecs0 (clock 0),
             capture_duration := clock tickEnd - clock 0,
             submissions := subs }, tickEnd)
    | (_, .error e) => .error (.walkErr e)

/-- Embeds `Snapshot::capture()` (snapshot.rs:51-53): the snapshot alone. -/
def capture_snapshot (connectOk loginOk : Bool)
    (listFn : List Char → Except Unit (List FtpFile)) (clock : Nat → Int)
    (fuel : Nat) : Except CapErr Snapshot :=
  (capture_snapshot_aux connectOk loginOk listFn clock fuel).map Prod.fst

/-- A small concrete remote tree used by witnesses: `/incoming` holds
directory `a`, which holds directory `b`, which holds directory `c` (at
depth 3, never visited) and one matching package file. -/
def sampleListing : List Char → Except Unit (List FtpFile) := fun p =>
  if p = CRAN_ROOT then
    .ok [{ kind := .directory, name := ['a'], size := 0, modified := 0 }]
  else if p = CRAN_ROOT ++ '/' :: ['a'] then
    .ok [{ kind := .directory, name := ['b'], size := 0, modified := 0 }]
  else if p = CRAN_ROOT ++ '/' :: ['a'] ++ '/' :: ['b'] then
    .ok [{ kind := .directory, name := ['c'], size := 0, modified := 0 },
         { kind := .file, name := "x_1.tar.gz".toList, size := 1, modified := 1686830400000 }]
  else .ok []

/-! ## Serialization (`snapshot.rs` lines 22-40, `#[derive(Serialize, Deserialize)]`)

`serde_json` serializes a struct as a JSON object keyed by field names, a
`Vec` as an array, `usize`/`i64` as numbers, and `DateTime<Utc>` (via
`chrono`'s serde support) as its RFC 3339 rendering — `YYYY-MM-DDTHH:MM:SS`
followed by a subsecond fraction only when it is nonzero, and a trailing
`Z` for UTC.  The model below represents JSON at the value-tree level (the
text layer round-trips independently for well-formed trees) and implements
the datetime codec on `Int`-millisecond instants, faithful for years
1970-9999 (4-digit years). -/

/-- The decimal digit character for `d < 10`. -/
def digitChar (d : Nat) : Char :=
  Char.ofNat (48 + d)

/-- Fixed-width, zero-padded decimal rendering: `padNat k n` is the `k`
least-significant decimal digits of `n`, most significant first. -/
def padNat : Nat → Nat → List Char
  | 0, _ => []
  | k + 1, n => digitChar (n / 10 ^ k) :: padNat k (n % 10 ^ k)

/-- A decimal digit, if `c` is one. -/
def readDigit (c : Char) : Option Nat :=
  if '0' ≤ c ∧ c ≤ '9' then some (c.toNat - 48) else none

/-- Read exactly `k` decimal digits onto accumulator `acc`. -/
def readNatFixed : Nat → Nat → List Char → Option (Nat × List Char)
  | 0, acc, s => some (acc, s)
  | k + 1, acc, s =>
    match s with
    | [] => none
    | c :: s2 =>
      match readDigit c with
      | none => none
      | some d => readNatFixed k (acc * 10 + d) s2

/-- Consume one expected character. -/
def expectChar (c : Char) : List Char → Option (List Char)
  | [] => none
  | c2 :: rest => if c2 = c then some rest else none

/-- RFC 3339 rendering of a nonnegative millisecond instant (the form
`chrono` emits for a `DateTime<Utc>` under serde): date, `T`, time, a
3-digit millisecond fraction only when nonzero, and `Z`. -/
def fmtDateTime (n : Nat) : List Char :=
  padNat 4 (civilFromDays (n / 86400000)).1 ++
  '-' :: padNat 2 (civilFromDays (n / 86400000)).2.1 ++
  '-' :: padNat 2 (civilFromDays (n / 86400000)).2.2 ++
  'T' :: padNat 2 (n % 86400000 / 1000 / 3600) ++
  ':' :: padNat 2 (n % 86400000 / 1000 % 3600 / 60) ++
  ':' :: padNat 2 (n % 86400000 / 1000 % 60) ++
  (if n % 86400000 % 1000 = 0 then ['Z']
   else '.' :: padNat 3 (n % 86400000 % 1000) ++ ['Z'])

/-- Parser for the RFC 3339 profile above (the deserialization side of the
`chrono` serde codec, restricted to `Z`-suffixed timestamps of years
1970-9999): validates the calendar fields and rebuilds the millisecond
instant. -/
def parseDateTime (s : List Char) : Option Nat := do
  let (y, s) ← readNatFixed 4 0 s
  let s ← expectChar '-' s
  let (mo, s) ← readNatFixed 2 0 s
  let s ← expectChar '-' s
  let (d, s) ← readNatFixed 2 0 s
  let s ← expectChar 'T' s
  let (h, s) ← readNatFixed 2 0 s
  let s ← expectChar ':' s
  let (mi, s) ← readNatFixed 2 0 s
  let s ← expectChar ':' s
  let (sec, s) ← readNatFixed 2 0 s
  let (ms, s) ← (match s with
    | '.' :: rest => readNatFixed 3 0 rest
    | _ => some (0, s))
  match s with
  | ['Z'] =>
    if 1 ≤ mo ∧ mo ≤ 12 ∧ 1 ≤ d ∧ d ≤ monthLen (isLeap y) mo ∧
        h ≤ 23 ∧ mi ≤ 59 ∧ sec ≤ 59 then
      some ((daysFromCivil y mo d * 86400 + h * 3600 + mi * 60 + sec) * 1000 + ms)
    else none
  | _ => none

/-- JSON value trees (the `serde_json` data model; numbers restricted to
the integers this program serializes). -/
inductive Json where
  | jnull
  | jbool (b : Bool)
  | jnum (n : Int)
  | jstr (s : List Char)
  | jarr (xs : List Json)
  | jobj (fields : List (List Char × Json))

/-- First-match field lookup in a JSON object (how serde's derived
deserializer resolves a struct field by name). -/
def jlookup : List (List Char × Json) → List Char → Option Json
  | [], _ => none
  | (k, v) :: rest, key => if k = key then some v else jlookup rest key

/-- Serialization of a `DateTime<Utc>` held as `Int` milliseconds. -/
def dtToJson (t : Int) : Json :=
  .jstr (fmtDateTime t.toNat)

/-- Deserialization of a `DateTime<Utc>`. -/
def dtFromJson : Json → Option Int
  | .jstr s => (parseDateTime s).map (fun n => (n : Int))
  | _ => none

/-- Deserialization of a `usize` (rejects negatives). -/
def natFromJson : Json → Option Nat
  | .jnum n => if 0 ≤ n then some n.toNat else none
  | _ => none

/-- Deserialization of an `i64`. -/
def intFromJson : Json → Option Int
  | .jnum n => some n
  | _ => none

/-- Deserialization of a `String`. -/
def strFromJson : Json → Option (List Char)
  | .jstr s => some s
  | _ => none

/-- Derived `Serialize` for `Submission` (snapshot.rs:22-32): an object
with the six fields in declaration order. -/
def submissionToJson (sub : Submission) : Json :=
  .jobj [("request_time".toList, dtToJson sub.request_time),
         ("folder".toList, .jstr sub.folder),
         ("file_time".toList, dtToJson sub.file_time),
         ("file_bytes".toList, .jnum (sub.file_bytes : Int)),
         ("pkg_name".toList, .jstr sub.pkg_name),
         ("pkg_version".toList, .jstr sub.pkg_version)]

/-- Derived `Deserialize` for `Submission`: resolve each field by name and
decode it. -/
def submissionFromJson (j : Json) : Option Submission :=
  match j with
  | .jobj fields => do
    let jrt ← jlookup fields "request_time".toList
    let rt ← dtFromJson jrt
    let jfo ← jlookup fields "folder".toList
    let fo ← strFromJson jfo
    let jft ← jlookup fields "file_time".toList
    let ft ← dtFromJson jft
    let jfb ← jlookup fields "file_bytes".toList
    let fb ← natFromJson jfb
    let jpn ← jlookup fields "pkg_name".toList
    let pn ← strFromJson jpn
    let jpv ← jlookup fields "pkg_version".toList
    let pv ← strFromJson jpv
    some { request_time := rt, folder := fo, file_time := ft,
           file_bytes := fb, pkg_name := pn, pkg_version := pv }
  | _ => none

/-- Derived `Serialize` for `Snapshot` (snapshot.rs:34-40). -/
def snapshotToJson (s : Snapshot) : Json :=
  .jobj [("capture_time".toList, dtToJson s.capture_time),
         ("capture_duration".toList, .jnum s.capture_duration),
         ("submissions".toList, .jarr (s.submissions.map submissionToJson))]

/-- Derived `Deserialize` for `Vec<Submission>`: decode the array
elements in order, failing if any element fails. -/
def submissionsFromJson : List Json → Option (List Submission)
  | [] => some []
  | j :: rest => do
    let sub ← submissionFromJson j
    let subs ← submissionsFromJson rest
    some (sub :: subs)

/-- Derived `Deserialize` for `Snapshot`. -/
def snapshotFromJson (j : Json) : Option Snapshot :=
  match j with
  | .jobj fields => do
    let jct ← jlookup fields "capture_time".toList
    let ct ← dtFromJson jct
    let jcd ← jlookup fields "capture_duration".toList
    let cd ← intFromJson jcd
    let jsu ← jlookup fields "submissions".toList
    match jsu with
    | .jarr xs => do
      let subs ← submissionsFromJson xs
      some { capture_time := ct, capture_duration := cd, submissions := subs }
    | _ => none
  | _ => none

/-- The instants whose RFC 3339 rendering the codec model covers:
1970-01-01 up to (exclusive) 10000-01-01, in milliseconds. -/
def dtInRange (t : Int) : Prop :=
  0 ≤ t ∧ t < 253402300800000

instance (t : Int) : Decidable (dtInRange t) := by
  unfold dtInRange
  infer_instance

/-- A `Submission` whose two timestamps are in codec range. -/
def subInRange (sub : Submission) : Prop :=
  dtInRange sub.request_time ∧ dtInRange sub.file_time

instance (sub : Submission) : Decidable (subInRange sub) := by
  unfold subInRange
  infer_instance

/-! ## Claims about the TTL cache -/

/-- Helper: under the clock precondition, the access always returns a value,
whatever the capture outcome. -/
theorem snap_isSome_of_le (c : Cache) (now : Nat) (cap : Option Snapshot)
    (h : c.last_update ≤ now) : (snap c now cap).isSome = true := by
  have hd : duration_since now c.last_update = some (now - c.last_update) := by
    simp [duration_since, Nat.not_lt.mpr h]
  by_cases hgt : TIMEOUT_CACHE_SECONDS < (now - c.last_update) / 1000000000
  · cases cap <;> simp [snap, hd, hgt]
  · simp [snap, hd, hgt]

/-- C1: on a cache access where the Snapshot Capture fails (`captureResult =
none`), the previously stored snapshot is left in place and is the one
returned to the caller; moreover (given a clock reading not earlier than
`last_update`) every access returns some container, whatever the capture
outcome. -/
theorem C1_capture_failure_absorbed (c : Cache) (now : Nat)
    (h : c.last_update ≤ now) :
    (∃ c1 log, snap c now none = some (c1, c.data, log) ∧ c1.data = c.data) ∧
    (∀ cap : Option Snapshot, (snap c now cap).isSome = true) := by
  have hd : duration_since now c.last_update = some (now - c.last_update) := by
    simp [duration_since, Nat.not_lt.mpr h]
  constructor
  · by_cases hgt : TIMEOUT_CACHE_SECONDS < (now - c.last_update) / 1000000000
    · refine ⟨{ last_update := now, data := c.data },
        [.updateCache, .captureError], ?_, rfl⟩
      simp [snap, hd, hgt]
    · refine ⟨c, [.useCached], ?_, rfl⟩
      simp [snap, hd, hgt]
  · exact fun cap => snap_isSome_of_le c now cap h

/-- Witness for C1 at a concrete state: the boot cache queried at
t = 1500 s with a failing capture. -/
theorem C1_capture_failure_absorbed_witness :
    (∃ c1 log, snap (rocketCache 0) 1500000000000 none =
        some (c1, (rocketCache 0).data, log) ∧ c1.data = (rocketCache 0).data) ∧
    (snap (rocketCache 0) 1500000000000 none).isSome = true :=
  ⟨(C1_capture_failure_absorbed (rocketCache 0) 1500000000000 (by decide)).1,
   (C1_capture_failure_absorbed (rocketCache 0) 1500000000000 (by decide)).2 none⟩

/-- C2 counterexample: with `last_update = 0` and `now` at 600 s + 1 ns the
elapsed time strictly exceeds the TTL (600 s), yet the handler takes the
fresh path (`as_secs()` truncates 600.000000001 s to 600), leaves
`last_update` unchanged and attempts no capture — contradicting "if the
elapsed time is > ttl, last_update is set to the current time before the
capture is attempted". -/
theorem C2_counterexample :
    TIMEOUT_CACHE_SECONDS * 1000000000 < 600000000001 - (rocketCache 0).last_update ∧
    snap (rocketCache 0) 600000000001 (some (snapshotNew 7)) =
      some (rocketCache 0, (rocketCache 0).data, [.useCached]) ∧
    (rocketCache 0).last_update ≠ 600000000001 := by
  decide

/-- C2 (amended): the fresh path is taken exactly when the elapsed time
*truncated to whole seconds* is at most the TTL; in particular an elapsed
time of at most `ttl` always returns the stored snapshot unchanged with no
capture attempted, while the stale path (taken when the truncated elapsed
seconds exceed the TTL, i.e. elapsed ≥ ttl + 1 s) sets `last_update := now`
before consuming the capture result. -/
theorem C2_ttl_gate (c : Cache) (now : Nat) (cap : Option Snapshot)
    (h : c.last_update ≤ now) :
    (now - c.last_update ≤ TIMEOUT_CACHE_SECONDS * 1000000000 →
      snap c now cap = some (c, c.data, [.useCached])) ∧
    ((now - c.last_update) / 1000000000 ≤ TIMEOUT_CACHE_SECONDS →
      snap c now cap = some (c, c.data, [.useCached])) ∧
    (TIMEOUT_CACHE_SECONDS < (now - c.last_update) / 1000000000 →
      ∃ c1 log, snap c now cap = some (c1, c1.data, log) ∧
        c1.last_update = now ∧
        (cap = none → c1.data = c.data ∧ log = [.updateCache, .captureError]) ∧
        (∀ s, cap = some s →
          c1.data = { c.data with snapshot := s } ∧ log = [.updateCache])) := by
  have hd : duration_since now c.last_update = some (now - c.last_update) := by
    simp [duration_since, Nat.not_lt.mpr h]
  refine ⟨?_, ?_, ?_⟩
  · intro hle
    have hsec : (now - c.last_update) / 1000000000 ≤ TIMEOUT_CACHE_SECONDS := by
      have := Nat.div_le_div_right (c := 1000000000) hle
      simpa using this
    simp [snap, hd, Nat.not_lt.mpr hsec]
  · intro hsec
    simp [snap, hd, Nat.not_lt.mpr hsec]
  · intro hgt
    cases cap with
    | none =>
      refine ⟨{ last_update := now, data := c.data },
        [.updateCache, .captureError], ?_, rfl, ?_, ?_⟩
      · simp [snap, hd, hgt]
      · exact fun _ => ⟨rfl, rfl⟩
      · intro s hs
        cases hs
    | some s =>
      refine ⟨{ last_update := now, data := { c.data with snapshot := s } },
        [.updateCache], ?_, rfl, ?_, ?_⟩
      · simp [snap, hd, hgt]
      · intro hs
        cases hs
      · intro s2 hs
        cases hs
        exact ⟨rfl, rfl⟩

/-- Witness for C2 (amended) at a concrete state: a fresh-path access at
300 s and a stale-path access at 2000 s. -/
theorem C2_ttl_gate_witness :
    snap (rocketCache 0) 300000000000 none =
      some (rocketCache 0, (rocketCache 0).data, [.useCached]) ∧
    (∃ c1 log, snap (rocketCache 0) 2000000000000 none = some (c1, c1.data, log) ∧
      c1.last_update = 2000000000000 ∧
      ((none : Option Snapshot) = none →
        c1.data = (rocketCache 0).data ∧ log = [.updateCache, .captureError]) ∧
      (∀ s, (none : Option Snapshot) = some s →
        c1.data = { (rocketCache 0).data with snapshot := s } ∧
        log = [.updateCache])) :=
  ⟨(C2_ttl_gate (rocketCache 0) 300000000000 none (by decide)).1 (by decide),
   (C2_ttl_gate (rocketCache 0) 2000000000000 none (by decide)).2.2 (by decide)⟩

/-- C7: `last_update` of the freshly constructed cache is the model's
earliest representable time `0` (`UNIX_EPOCH`), so the first access at any
current time of at least 601 s after the epoch takes the stale path and
triggers a capture attempt (the "Update cache" branch). -/
theorem C7_first_access_triggers_capture (boot : Int) (now : Nat)
    (cap : Option Snapshot) (h : 601 * 1000000000 ≤ now) :
    (rocketCache boot).last_update = 0 ∧
    ∃ c1 cont log, snap (rocketCache boot) now cap = some (c1, cont, log) ∧
      c1.last_update = now ∧ LogEvent.updateCache ∈ log := by
  have hgt : TIMEOUT_CACHE_SECONDS < now / 1000000000 := by
    have h601 : 601 ≤ now / 1000000000 := by
      have := Nat.div_le_div_right (c := 1000000000) h
      simpa using this
    exact lt_of_lt_of_le (by norm_num [TIMEOUT_CACHE_SECONDS]) h601
  refine ⟨rfl, ?_⟩
  cases cap with
  | none =>
    refine ⟨{ last_update := now, data := (rocketCache boot).data },
      (rocketCache boot).data, [.updateCache, .captureError], ?_, rfl, by simp⟩
    simp [snap, duration_since, rocketCache, hgt]
  | some s =>
    refine ⟨{ last_update := now, data := { (rocketCache boot).data with snapshot := s } },
      { (rocketCache boot).data with snapshot := s }, [.updateCache],
      ?_, rfl, by simp⟩
    simp [snap, duration_since, rocketCache, hgt]

/-- Witness for C7: the very first access in 2023 (t ≈ 1.7e18 ns) triggers a
capture attempt. -/
theorem C7_first_access_triggers_capture_witness :
    (rocketCache 0).last_update = 0 ∧
    ∃ c1 cont log, snap (rocketCache 0) 1700000000000000000 none =
      some (c1, cont, log) ∧
      c1.last_update = 1700000000000000000 ∧ LogEvent.updateCache ∈ log :=
  C7_first_access_triggers_capture 0 1700000000000000000 none (by decide)

/-- C8: if the clock reading taken at the start of the access is earlier
than the stored `last_update`, the handler panics
(`.expect("Time went backwards")`, modelled as `none`) instead of returning
a snapshot; under the complementary precondition the access always returns
a value. -/
theorem C8_clock_backwards_panics (c : Cache) (now : Nat)
    (cap : Option Snapshot) :
    (now < c.last_update → snap c now cap = none) ∧
    (c.last_update ≤ now → (snap c now cap).isSome = true) := by
  constructor
  · intro hlt
    simp [snap, duration_since, hlt]
  · exact snap_isSome_of_le c now cap

/-- Witness for C8: a cache whose `last_update` is 10 ns queried at 5 ns
panics; queried at 50 ns it returns a value. -/
theorem C8_clock_backwards_panics_witness :
    snap { last_update := 10, data := (rocketCache 0).data } 5 none = none ∧
    (snap { last_update := 10, data := (rocketCache 0).data } 50 none).isSome = true :=
  ⟨(C8_clock_backwards_panics { last_update := 10, data := (rocketCache 0).data }
      5 none).1 (by decide),
   (C8_clock_backwards_panics { last_update := 10, data := (rocketCache 0).data }
      50 none).2 (by decide)⟩

/-! ## Claims about the Entry Normalizer -/

/-- C3 counterexample: at a modify time whose local reading falls in the
2023 spring-forward gap (2023-03-26 02:30, Vienna) the correction does
*not* fall back to the current UTC time — the `LocalResult::unwrap()`
panics (`none`), aborting the capture; likewise the 2023 fall-back fold
(2023-10-29 02:30) is not resolved to the earlier instant but panics. -/
theorem C3_counterexample :
    viennaGap (viennaLocalLine 1679797800000) ∧
    local_systemtime_fix_timezone 1679797800000 = none ∧
    viennaFold (viennaLocalLine 1698546600000) ∧
    local_systemtime_fix_timezone 1698546600000 = none := by
  decide

/-- C3 (amended): the timezone correction panics (aborting the capture)
whenever the local wall-clock time does not exist in the Vienna zone (DST
gap) or is ambiguous (DST fold); only an unambiguous local time is
converted, to the unique instant consistent with the zone's offset. -/
theorem C3_gap_fold_panic (t : Nat) :
    (viennaGap (viennaLocalLine t) →
      local_systemtime_fix_timezone t = none) ∧
    (viennaFold (viennaLocalLine t) →
      local_systemtime_fix_timezone t = none) ∧
    (¬viennaGap (viennaLocalLine t) → ¬viennaFold (viennaLocalLine t) →
      ∃ u : Nat, local_systemtime_fix_timezone t = some ((u : Int) * 1000) ∧
        ((u = viennaLocalLine t - 3600 ∧ viennaOffset u = 3600) ∨
         (u = viennaLocalLine t - 7200 ∧ viennaOffset u = 7200))) := by
  by_cases h1 : viennaOffset (viennaLocalLine t - 3600) = 3600 <;>
    by_cases h2 : viennaOffset (viennaLocalLine t - 7200) = 7200
  · have hv : viennaFromLocal (viennaLocalLine t) =
        .lrAmbiguous (viennaLocalLine t - 7200) (viennaLocalLine t - 3600) := by
      rw [viennaFromLocal, if_pos ⟨h1, h2⟩]
    refine ⟨?_, ?_, ?_⟩
    · intro hg
      exact (hg.1 h1).elim
    · intro _
      rw [local_systemtime_fix_timezone, hv]
      rfl
    · intro _ hf
      exact (hf ⟨h1, h2⟩).elim
  · have hv : viennaFromLocal (viennaLocalLine t) = .lrSingle (viennaLocalLine t - 3600) := by
      rw [viennaFromLocal, if_neg (fun h => h2 h.2), if_pos h1]
    refine ⟨?_, ?_, ?_⟩
    · intro hg
      exact (hg.1 h1).elim
    · intro hf
      exact (h2 hf.2).elim
    · intro _ _
      refine ⟨viennaLocalLine t - 3600, ?_, Or.inl ⟨rfl, h1⟩⟩
      rw [local_systemtime_fix_timezone, hv]
      rfl
  · have hv : viennaFromLocal (viennaLocalLine t) = .lrSingle (viennaLocalLine t - 7200) := by
      rw [viennaFromLocal, if_neg (fun h => h1 h.1), if_neg h1, if_pos h2]
    refine ⟨?_, ?_, ?_⟩
    · intro hg
      exact (hg.2 h2).elim
    · intro hf
      exact (h1 hf.1).elim
    · intro _ _
      refine ⟨viennaLocalLine t - 7200, ?_, Or.inr ⟨rfl, h2⟩⟩
      rw [local_systemtime_fix_timezone, hv]
      rfl
  · have hv : viennaFromLocal (viennaLocalLine t) = .lrNone := by
      rw [viennaFromLocal, if_neg (fun h => h1 h.1), if_neg h1, if_neg h2]
    refine ⟨?_, ?_, ?_⟩
    · intro _
      rw [local_systemtime_fix_timezone, hv]
      rfl
    · intro hf
      exact (h1 hf.1).elim
    · intro hg _
      exact (hg ⟨h1, h2⟩).elim

/-- Witness for C3 (amended): the 2023 gap and fold instants panic, an
ordinary summer instant (2023-06-15 12:00 naive) converts to the UTC+2
interpretation. -/
theorem C3_gap_fold_panic_witness :
    local_systemtime_fix_timezone 1679797800000 = none ∧
    local_systemtime_fix_timezone 1698546600000 = none ∧
    ∃ u : Nat, local_systemtime_fix_timezone 1686830400000 = some ((u : Int) * 1000) ∧
      ((u = viennaLocalLine 1686830400000 - 3600 ∧ viennaOffset u = 3600) ∨
       (u = viennaLocalLine 1686830400000 - 7200 ∧ viennaOffset u = 7200)) :=
  ⟨(C3_gap_fold_panic 1679797800000).1 (by decide),
   (C3_gap_fold_panic 1698546600000).2.1 (by decide),
   (C3_gap_fold_panic 1686830400000).2.2 (by decide) (by decide)⟩

/-- C4 counterexample: a regular file whose name matches the pattern but
whose modify time falls in the 2023 DST gap produces no `Submission` — the
timezone `.unwrap()` panics first — contradicting "if the name matches, a
Submission is produced". -/
theorem C4_counterexample :
    regexCaptures ("a_1.tar.gz".toList) = some (some ['a'], some ['1']) ∧
    create_entry { kind := .file, name := "a_1.tar.gz".toList, size := 5, modified := 1679797800000 } "/incoming/x".toList 0 = .error () := by
  constructor
  · decide
  · rfl

/-- C4 (amended): `create_entry` returns nothing for a non-regular-file
record or a name that does not match `^(.+)_(.+)\.tar\.gz$`; when the name
matches *and* the timezone correction of the modify time does not panic, a
`Submission` is produced whose `pkg_name`/`pkg_version` are capture groups
1 and 2 (the literal `"[unknown]"` standing in for an absent group — which
in fact never occurs: both groups are always present on a match). -/
theorem C4_create_entry (f : FtpFile) (folder : List Char) (rt : Int) :
    (f.kind ≠ EntryKind.file → create_entry f folder rt = .ok none) ∧
    (f.kind = EntryKind.file → regexCaptures f.name = none →
      create_entry f folder rt = .ok none) ∧
    (∀ g1 g2 ft, f.kind = EntryKind.file →
      regexCaptures f.name = some (g1, g2) →
      local_systemtime_fix_timezone f.modified = some ft →
      create_entry f folder rt = .ok (some
        { request_time := rt, folder := folderStrip folder, file_time := ft,
          file_bytes := f.size, pkg_name := g1.getD UNKNOWN,
          pkg_version := g2.getD UNKNOWN })) ∧
    (∀ g1 g2, regexCaptures f.name = some (g1, g2) →
      (∃ a, g1 = some a) ∧ ∃ b, g2 = some b) := by
  refine ⟨?_, ?_, ?_, ?_⟩
  · intro hk
    simp [create_entry, hk]
  · intro hk hre
    simp [create_entry, hk, hre]
  · intro g1 g2 ft hk hre hfx
    simp [create_entry, hk, hre, hfx]
  · intro g1 g2 h
    rw [regexCaptures] at h
    split at h
    · cases h
    · split at h
      · cases h
      · split at h
        · cases h
        · rename_i stem _ p _
          rw [Option.some_inj] at h
          cases h
          exact ⟨⟨_, rfl⟩, ⟨_, rfl⟩⟩

/-- Witness for C4 (amended): a skipped directory, a skipped `README`, a
produced submission for `testpkg_1.0.tar.gz`, and group presence. -/
theorem C4_create_entry_witness :
    create_entry { kind := .directory, name := "sub".toList, size := 0, modified := 0 } "/incoming".toList 0 = .ok none ∧
    create_entry { kind := .file, name := "README".toList, size := 3, modified := 0 } "/incoming".toList 0 = .ok none ∧
    create_entry { kind := .file, name := "testpkg_1.0.tar.gz".toList, size := 7, modified := 1686830400000 } "/incoming/UB".toList 9 =
      .ok (some { request_time := 9, folder := folderStrip "/incoming/UB".toList, file_time := 1686823200000, file_bytes := 7, pkg_name := (some "testpkg".toList).getD UNKNOWN, pkg_version := (some "1.0".toList).getD UNKNOWN }) ∧
    ((∃ a, some "testpkg".toList = some a) ∧
      ∃ b, some "1.0".toList = some b) :=
  ⟨(C4_create_entry { kind := .directory, name := "sub".toList, size := 0, modified := 0 } "/incoming".toList 0).1 (by decide),
   (C4_create_entry { kind := .file, name := "README".toList, size := 3, modified := 0 } "/incoming".toList 0).2.1 rfl (by decide),
   (C4_create_entry { kind := .file, name := "testpkg_1.0.tar.gz".toList, size := 7, modified := 1686830400000 } "/incoming/UB".toList 9).2.2.1 (some "testpkg".toList) (some "1.0".toList) 1686823200000 rfl (by decide) (by decide),
   (C4_create_entry { kind := .file, name := "testpkg_1.0.tar.gz".toList, size := 7, modified := 1686830400000 } "/incoming/UB".toList 9).2.2.2 (some "testpkg".toList) (some "1.0".toList) (by decide)⟩

/-- C6: the `folder` field strips the traversal-root prefix and its
following separator (`/incoming/sub` becomes `sub`); any containing path no
longer than the root yields the empty string, and the clamped slice start
`min (root.len + 1) folder.len` never exceeds the path length (no
out-of-bounds slice). -/
theorem C6_folder_strip :
    (∀ rest : List Char, folderStrip (CRAN_ROOT ++ '/' :: rest) = rest) ∧
    (∀ p : List Char, p.length ≤ CRAN_ROOT.length → folderStrip p = []) ∧
    (∀ p : List Char, min (CRAN_ROOT.length + 1) p.length ≤ p.length) := by
  have h9 : CRAN_ROOT.length = 9 := rfl
  refine ⟨?_, ?_, ?_⟩
  · intro rest
    have hsplit : CRAN_ROOT ++ '/' :: rest = (CRAN_ROOT ++ ['/']) ++ rest := by
      simp
    have hlen : (CRAN_ROOT ++ ['/']).length = 10 := rfl
    rw [folderStrip, hsplit]
    have hmin : min (CRAN_ROOT.length + 1) ((CRAN_ROOT ++ ['/']) ++ rest).length = 10 := by
      simp only [List.length_append, List.length_cons, List.length_nil, h9]
      omega
    rw [hmin, ← hlen, List.drop_left]
  · intro p hp
    rw [folderStrip]
    have hmin : min (CRAN_ROOT.length + 1) p.length = p.length := by
      omega
    rw [hmin, List.drop_length]
  · intro p
    exact min_le_right _ _

/-- Witness for C6: the spec's own example `/incoming/sub`, and the short
path `/inc`. -/
theorem C6_folder_strip_witness :
    folderStrip (CRAN_ROOT ++ '/' :: "sub".toList) = "sub".toList ∧
    folderStrip ("/inc".toList) = [] ∧
    min (CRAN_ROOT.length + 1) ("/inc".toList).length ≤ ("/inc".toList).length :=
  ⟨C6_folder_strip.1 "sub".toList,
   C6_folder_strip.2.1 "/inc".toList (by decide),
   C6_folder_strip.2.2 "/inc".toList⟩

/-! ## Claims about the Tree Walker and Snapshot Capture -/

/-- Helper: the per-directory entry loop only ever adds work-list entries at
depth `depth + 1`, and only when `depth < max_depth`. -/
theorem processEntries_stack_mem (depth : Nat) (path : List Char) (rt : Int) :
    ∀ (entries : List FtpFile) (stack : List (Nat × List Char))
      (subs : List Submission) (stack2 : List (Nat × List Char))
      (subs2 : List Submission),
      processEntries depth path rt entries stack subs = .ok (stack2, subs2) →
      ∀ e ∈ stack2, e ∈ stack ∨ (depth < max_depth ∧ e.1 = depth + 1) := by
  intro entries
  induction entries with
  | nil =>
    intro stack subs stack2 subs2 h e he
    simp only [processEntries, Except.ok.injEq, Prod.mk.injEq] at h
    rw [← h.1] at he
    exact Or.inl he
  | cons f rest ih =>
    intro stack subs stack2 subs2 h e he
    cases hk : f.kind with
    | directory =>
      simp only [processEntries, hk] at h
      by_cases hd : depth < max_depth
      · rw [if_pos hd] at h
        rcases ih _ _ _ _ h e he with hmem | hnew
        · rcases List.mem_cons.mp hmem with hhead | htail
          · exact Or.inr ⟨hd, by rw [hhead]⟩
          · exact Or.inl htail
        · exact Or.inr hnew
      · rw [if_neg hd] at h
        exact ih _ _ _ _ h e he
    | file =>
      simp only [processEntries, hk] at h
      cases hce : create_entry f path rt with
      | error u =>
        rw [hce] at h
        cases h
      | ok osub =>
        rw [hce] at h
        cases osub with
        | none => exact ih _ _ _ _ h e he
        | some sub => exact ih _ _ _ _ h e he
    | symlink =>
      simp only [processEntries, hk] at h
      exact ih _ _ _ _ h e he

/-- Helper: if every pending work-list entry and every already-listed
directory is within the depth bound, then so is every directory the loop
ever lists. -/
theorem walkLoop_listed_bound (listFn : List Char → Except Unit (List FtpFile))
    (clock : Nat → Int) :
    ∀ (fuel : Nat) (stack : List (Nat × List Char)) (tick : Nat)
      (subs : List Submission) (listed : List (Nat × List Char)),
      (∀ e ∈ stack, e.1 ≤ max_depth) → (∀ e ∈ listed, e.1 ≤ max_depth) →
      ∀ e ∈ (walkLoop listFn clock fuel stack tick subs listed).1,
        e.1 ≤ max_depth := by
  intro fuel
  induction fuel with
  | zero =>
    intro stack tick subs listed hs hl e he
    cases stack with
    | nil =>
      simp only [walkLoop] at he
      exact hl e he
    | cons hd tl =>
      simp only [walkLoop] at he
      exact hl e he
  | succ fuel ih =>
    intro stack tick subs listed hs hl e he
    cases stack with
    | nil =>
      simp only [walkLoop] at he
      exact hl e he
    | cons hd tl =>
      obtain ⟨depth, path⟩ := hd
      have hdep : depth ≤ max_depth := hs (depth, path) (List.mem_cons_self _ _)
      cases hls : listFn path with
      | error u =>
        simp only [walkLoop, hls] at he
        rcases List.mem_append.mp he with hmem | hmem
        · exact hl e hmem
        · rw [List.mem_singleton.mp hmem]
          exact hdep
      | ok entries =>
        cases hpe : processEntries depth path (round_subsecs0 (clock tick))
            entries tl subs with
        | error u =>
          simp only [walkLoop, hls, hpe] at he
          rcases List.mem_append.mp he with hmem | hmem
          · exact hl e hmem
          · rw [List.mem_singleton.mp hmem]
            exact hdep
        | ok p =>
          obtain ⟨stack2, subs2⟩ := p
          simp only [walkLoop, hls, hpe] at he
          refine ih stack2 (tick + 1) subs2 (listed ++ [(depth, path)]) ?_ ?_ e he
          · intro f hf
            rcases processEntries_stack_mem depth path
                (round_subsecs0 (clock tick)) entries tl subs stack2 subs2 hpe
                f hf with hmem | ⟨hlt, heq⟩
            · exact hs f (List.mem_cons_of_mem _ hmem)
            · rw [heq]
              omega
          · intro f hf
            rcases List.mem_append.mp hf with hmem | hmem
            · exact hl f hmem
            · rw [List.mem_singleton.mp hmem]
              exact hdep

/-- C5: a subdirectory enters the work list only when the current depth is
strictly below `max_depth = 2` (and then at depth + 1); consequently, from
any work list within the bound the loop keeps every pending entry within
the bound, and starting from the root no directory of depth > 2 is ever
listed. -/
theorem C5_depth_bound (listFn : List Char → Except Unit (List FtpFile))
    (clock : Nat → Int) :
    (∀ (depth : Nat) (path : List Char) (rt : Int) (entries : List FtpFile)
      (stack : List (Nat × List Char)) (subs : List Submission)
      (stack2 : List (Nat × List Char)) (subs2 : List Submission),
      processEntries depth path rt entries stack subs = .ok (stack2, subs2) →
      ∀ e ∈ stack2, e ∈ stack ∨ (depth < max_depth ∧ e.1 = depth + 1)) ∧
    (∀ (fuel : Nat) (stack : List (Nat × List Char)) (tick : Nat)
      (subs : List Submission) (listed : List (Nat × List Char)),
      (∀ e ∈ stack, e.1 ≤ max_depth) → (∀ e ∈ listed, e.1 ≤ max_depth) →
      ∀ e ∈ (walkLoop listFn clock fuel stack tick subs listed).1,
        e.1 ≤ max_depth) ∧
    (∀ fuel, ∀ e ∈ (walkLoop listFn clock fuel [(0, CRAN_ROOT)] 1 [] []).1,
      e.1 ≤ max_depth) := by
  refine ⟨fun depth path rt => processEntries_stack_mem depth path rt,
    walkLoop_listed_bound listFn clock, fun fuel => ?_⟩
  refine walkLoop_listed_bound listFn clock fuel [(0, CRAN_ROOT)] 1 [] [] ?_ ?_
  · intro e he
    rw [List.mem_singleton.mp he]
    exact Nat.zero_le _
  · intro e he
    cases he

/-- Witness for C5: in the sample tree, depth-2 directory `/incoming/a/b`
is listed and the bound holds for it; its depth-3 child is never listed. -/
theorem C5_depth_bound_witness :
    (2, "/incoming/a/b".toList) ∈
      (walkLoop sampleListing (fun k => (k : Int)) 10 [(0, CRAN_ROOT)] 1 [] []).1 ∧
    (2, "/incoming/a/b".toList).1 ≤ max_depth :=
  ⟨by decide,
   (C5_depth_bound sampleListing (fun k => (k : Int))).2.2 10
     (2, "/incoming/a/b".toList) (by decide)⟩

/-- C9: every successful capture has `capture_duration` equal to the
difference, in milliseconds, between the clock reading taken at the
completion of the traversal — the very reading `capture_snapshot_aux`
returns and the walk loop's outcome carries — and the recorded capture
start reading (`clock 0`); under a monotone clock it is therefore ≥ 0. -/
theorem C9_capture_duration (connectOk loginOk : Bool)
    (listFn : List Char → Except Unit (List FtpFile)) (clock : Nat → Int)
    (fuel : Nat) (s : Snapshot) (hmono : Monotone clock)
    (h : capture_snapshot connectOk loginOk listFn clock fuel = .ok s) :
    0 ≤ s.capture_duration ∧
    ∃ tickEnd,
      capture_snapshot_aux connectOk loginOk listFn clock fuel = .ok (s, tickEnd) ∧
      (walkLoop listFn clock fuel [(0, CRAN_ROOT)] 1 [] []).2 =
        .ok (s.submissions, tickEnd) ∧
      s.capture_duration = clock tickEnd - clock 0 := by
  unfold capture_snapshot at h
  cases haux : capture_snapshot_aux connectOk loginOk listFn clock fuel with
  | error e =>
    rw [haux] at h
    cases h
  | ok p =>
    rw [haux] at h
    simp only [Except.map, Except.ok.injEq] at h
    have haux2 := haux
    unfold capture_snapshot_aux at haux2
    by_cases hco : connectOk = false
    · rw [if_pos hco] at haux2
      cases haux2
    · rw [if_neg hco] at haux2
      by_cases hlo : loginOk = false
      · rw [if_pos hlo] at haux2
        cases haux2
      · rw [if_neg hlo] at haux2
        rcases hw : walkLoop listFn clock fuel [(0, CRAN_ROOT)] 1 [] [] with
          ⟨listed, out⟩
        rw [hw] at haux2
        cases out with
        | error e => cases haux2
        | ok r =>
          obtain ⟨subs, tickEnd⟩ := r
          simp only [Except.ok.injEq] at haux2
          have hs : s = { capture_time := round_subsecs0 (clock 0), capture_duration := clock tickEnd - clock 0, submissions := subs } := by
            rw [← h, ← haux2]
          have hp : p = (s, tickEnd) := by
            rw [hs, ← haux2]
          refine ⟨?_, tickEnd, ?_, ?_, ?_⟩
          · rw [hs]
            show 0 ≤ clock tickEnd - clock 0
            have := hmono (Nat.zero_le tickEnd)
            omega
          · rw [hp]
          · rw [hs]
          · rw [hs]

/-- Witness for C9: a trivial capture (empty root listing, identity clock)
succeeds; the traversal completes at tick 2, and the duration is
`clock 2 - clock 0 = 2 ≥ 0`. -/
theorem C9_capture_duration_witness :
    (0 : Int) ≤
      ({ capture_time := 0, capture_duration := 2, submissions := [] } : Snapshot).capture_duration ∧
    ∃ tickEnd,
      capture_snapshot_aux true true (fun _ => .ok []) (fun k : Nat => (k : Int)) 1 =
        .ok (({ capture_time := 0, capture_duration := 2, submissions := [] } : Snapshot), tickEnd) ∧
      (walkLoop (fun _ => .ok []) (fun k : Nat => (k : Int)) 1 [(0, CRAN_ROOT)] 1 [] []).2 =
        .ok (({ capture_time := 0, capture_duration := 2, submissions := [] } : Snapshot).submissions, tickEnd) ∧
      ({ capture_time := 0, capture_duration := 2, submissions := [] } : Snapshot).capture_duration =
        (fun k : Nat => (k : Int)) tickEnd - (fun k : Nat => (k : Int)) 0 :=
  C9_capture_duration true true (fun _ => .ok []) (fun k : Nat => (k : Int)) 1
    { capture_time := 0, capture_duration := 2, submissions := [] }
    (fun _ _ hab => Int.ofNat_le.mpr hab) rfl

/-! ## Round-trip of the serialization -/

/-- Helper: `digitChar` and `readDigit` are inverse on digits. -/
theorem readDigit_digitChar : ∀ d : Nat, d < 10 → readDigit (digitChar d) = some d := by
  decide

/-- Helper: reading `k` digits undoes `k`-digit padding. -/
theorem readNatFixed_padNat :
    ∀ (k acc n : Nat) (rest : List Char), n < 10 ^ k →
      readNatFixed k acc (padNat k n ++ rest) = some (acc * 10 ^ k + n, rest) := by
  intro k
  induction k with
  | zero =>
    intro acc n rest hn
    interval_cases n
    simp [padNat, readNatFixed]
  | succ k ih =>
    intro acc n rest hn
    have hp : (0 : Nat) < 10 ^ k := Nat.pos_pow_of_pos k (by norm_num)
    have hdiv : n / 10 ^ k < 10 := by
      rw [Nat.div_lt_iff_lt_mul hp]
      calc n < 10 ^ (k + 1) := hn
        _ = 10 * 10 ^ k := by ring
    have hmod : n % 10 ^ k < 10 ^ k := Nat.mod_lt _ hp
    rw [padNat, List.cons_append, readNatFixed, readDigit_digitChar _ hdiv]
    show readNatFixed k (acc * 10 + n / 10 ^ k) (padNat k (n % 10 ^ k) ++ rest) = _
    rw [ih (acc * 10 + n / 10 ^ k) (n % 10 ^ k) rest hmod]
    congr 1
    rw [Prod.mk.injEq]
    refine ⟨?_, rfl⟩
    have hdm := Nat.div_add_mod n (10 ^ k)
    calc (acc * 10 + n / 10 ^ k) * 10 ^ k + n % 10 ^ k
        = acc * (10 ^ k * 10) + (10 ^ k * (n / 10 ^ k) + n % 10 ^ k) := by ring
      _ = acc * (10 ^ k * 10) + n := by rw [hdm]
      _ = acc * 10 ^ (k + 1) + n := by rw [pow_succ]

/-- Helper: a year has 365 or 366 days. -/
theorem daysInYear_ge (y : Nat) : 365 ≤ daysInYear y := by
  rw [daysInYear]
  split <;> omega

/-- Helper: one more year of days, in closed form. -/
theorem daysUpTo_succ (y : Nat) : daysUpTo (y + 1) = daysUpTo y + daysInYear y := by
  have hleap : daysInYear y = if (y % 4 = 0 ∧ ¬ y % 100 = 0) ∨ y % 400 = 0 then 366 else 365 := by
    rw [daysInYear, isLeap]
    rcases Decidable.em ((y % 4 = 0 ∧ ¬ y % 100 = 0) ∨ y % 400 = 0) with h | h
    · rw [if_pos h, if_pos]
      simp only [Bool.or_eq_true, Bool.and_eq_true, beq_iff_eq, bne_iff_ne, ne_eq]
      exact h
    · rw [if_neg h, if_neg]
      simp only [Bool.or_eq_true, Bool.and_eq_true, beq_iff_eq, bne_iff_ne, ne_eq]
      exact h
  rw [daysUpTo, daysUpTo, leapsBefore, leapsBefore, hleap]
  split <;> omega

/-- Helper: `daysUpTo` is monotone. -/
theorem daysUpTo_mono : ∀ y1 y2 : Nat, y1 ≤ y2 → daysUpTo y1 ≤ daysUpTo y2 := by
  intro y1 y2 h
  induction y2 with
  | zero =>
    interval_cases y1
    exact le_refl _
  | succ y ih =>
    rcases Nat.lt_or_ge y1 (y + 1) with hlt | hge
    · calc daysUpTo y1 ≤ daysUpTo y := ih (by omega)
        _ ≤ daysUpTo (y + 1) := by
            rw [daysUpTo_succ]
            omega
    · have : y1 = y + 1 := by omega
      rw [this]

/-- Helper: one more year of days from the 1970 origin. -/
theorem daysToYear_succ (y : Nat) (h : 1970 ≤ y) :
    daysToYear (y + 1) = daysToYear y + daysInYear y := by
  rcases Nat.eq_or_lt_of_le h with heq | hlt
  · rw [← heq]
    rw [daysToYear, daysToYear, if_pos (le_refl 1970), if_neg (by omega), daysUpTo_succ]
    omega
  · have h1 : ¬ y ≤ 1970 := by omega
    have h2 : ¬ y + 1 ≤ 1970 := by omega
    rw [daysToYear, daysToYear, if_neg h1, if_neg h2, daysUpTo_succ]
    have := daysUpTo_mono 1970 y (by omega)
    omega

/-- Helper: `daysToYear` is monotone. -/
theorem daysToYear_mono : ∀ y1 y2 : Nat, y1 ≤ y2 → daysToYear y1 ≤ daysToYear y2 := by
  intro y1 y2 h
  rw [daysToYear, daysToYear]
  split
  · exact Nat.zero_le _
  · split
    · omega
    · exact Nat.sub_le_sub_right (daysUpTo_mono y1 y2 h) _

/-- Helper: the fuel-driven year loop, run with enough fuel, lands in the
year containing the day and preserves the day count. -/
theorem yearFromDays_correct :
    ∀ (fuel y d : Nat), 1970 ≤ y → d < 365 * fuel →
      1970 ≤ (yearFromDays fuel y d).1 ∧ y ≤ (yearFromDays fuel y d).1 ∧
      (yearFromDays fuel y d).2 < daysInYear (yearFromDays fuel y d).1 ∧
      daysToYear (yearFromDays fuel y d).1 + (yearFromDays fuel y d).2 =
        daysToYear y + d := by
  intro fuel
  induction fuel with
  | zero =>
    intro y d hy hd
    omega
  | succ fuel ih =>
    intro y d hy hd
    by_cases hlt : d < daysInYear y
    · rw [yearFromDays, if_pos hlt]
      exact ⟨hy, le_refl y, hlt, rfl⟩
    · rw [yearFromDays, if_neg hlt]
      have h365 := daysInYear_ge y
      have hd2 : d - daysInYear y < 365 * fuel := by omega
      obtain ⟨k1, k2, k3, k4⟩ := ih (y + 1) (d - daysInYear y) (by omega) hd2
      refine ⟨k1, by omega, k3, ?_⟩
      rw [k4, daysToYear_succ y hy]
      omega

/-- Helper: every month length is between 28 and 31. -/
theorem monthLen_bounds (leap : Bool) (m : Nat) :
    28 ≤ monthLen leap m ∧ monthLen leap m ≤ 31 := by
  rcases m with _|_|_|_|_|_|_|_|_|_|_|_|_|m <;> cases leap <;>
    first
      | decide
      | exact (by decide : (28 : Nat) ≤ 31 ∧ (31 : Nat) ≤ 31)

/-- Helper: the month scan inside one year is correct for every day of the
year. -/
theorem monthFromDoy_correct :
    ∀ (leap : Bool) (doy : Nat), doy < (if leap then 366 else 365) →
      1 ≤ (monthFromDoy leap doy).1 ∧ (monthFromDoy leap doy).1 ≤ 12 ∧
      1 ≤ (monthFromDoy leap doy).2 ∧
      (monthFromDoy leap doy).2 ≤ monthLen leap (monthFromDoy leap doy).1 ∧
      monthCumul leap (monthFromDoy leap doy).1 + ((monthFromDoy leap doy).2 - 1) = doy := by
  decide

/-- Helper: converting a day count (before 10000-01-01) to a civil date
gives in-range fields, and converting back recovers the day count. -/
theorem civilFromDays_correct (days : Nat) (h : days < 2932897) :
    1970 ≤ (civilFromDays days).1 ∧ (civilFromDays days).1 ≤ 9999 ∧
    1 ≤ (civilFromDays days).2.1 ∧ (civilFromDays days).2.1 ≤ 12 ∧
    1 ≤ (civilFromDays days).2.2 ∧
    (civilFromDays days).2.2 ≤
      monthLen (isLeap (civilFromDays days).1) (civilFromDays days).2.1 ∧
    daysFromCivil (civilFromDays days).1 (civilFromDays days).2.1
      (civilFromDays days).2.2 = days := by
  have hfuel : days < 365 * (days / 365 + 1) := by omega
  obtain ⟨k1, k2, k3, k4⟩ :=
    yearFromDays_correct (days / 365 + 1) 1970 days (le_refl _) hfuel
  have hdoy : (yearFromDays (days / 365 + 1) 1970 days).2 <
      (if isLeap (yearFromDays (days / 365 + 1) 1970 days).1 then 366 else 365) := by
    simpa [daysInYear] using k3
  obtain ⟨m1, m2, m3, m4, m5⟩ :=
    monthFromDoy_correct (isLeap (yearFromDays (days / 365 + 1) 1970 days).1)
      (yearFromDays (days / 365 + 1) 1970 days).2 hdoy
  have e1 : (civilFromDays days).1 = (yearFromDays (days / 365 + 1) 1970 days).1 := rfl
  have e2 : (civilFromDays days).2.1 =
      (monthFromDoy (isLeap (yearFromDays (days / 365 + 1) 1970 days).1)
        (yearFromDays (days / 365 + 1) 1970 days).2).1 := rfl
  have e3 : (civilFromDays days).2.2 =
      (monthFromDoy (isLeap (yearFromDays (days / 365 + 1) 1970 days).1)
        (yearFromDays (days / 365 + 1) 1970 days).2).2 := rfl
  rw [e1, e2, e3]
  have h1970 : daysToYear 1970 = 0 := rfl
  refine ⟨k1, ?_, m1, m2, m3, m4, ?_⟩
  · by_contra hgt
    push_neg at hgt
    have hmono := daysToYear_mono 10000 (yearFromDays (days / 365 + 1) 1970 days).1 (by omega)
    have h10000 : daysToYear 10000 = 2932897 := by decide
    omega
  · rw [daysFromCivil]
    omega

/-- Helper: monadic bind on a present `Option` value. -/
theorem optionBind_some {α β : Type} (a : α) (f : α → Option β) :
    (some a : Option α) >>= f = f a := rfl

/-- Helper: `expectChar` consumes the expected character. -/
theorem expectChar_same (c : Char) (rest : List Char) :
    expectChar c (c :: rest) = some rest := by
  simp [expectChar]

set_option maxHeartbeats 3200000 in
/-- Helper: the parser on a well-formed datetime string without a
fraction. -/
theorem parseDateTime_build0 (y mo d h mi sec : Nat)
    (hy : y < 10 ^ 4) (hmo : mo < 10 ^ 2) (hd : d < 10 ^ 2)
    (hh : h < 10 ^ 2) (hmi : mi < 10 ^ 2) (hsec : sec < 10 ^ 2)
    (hguard : 1 ≤ mo ∧ mo ≤ 12 ∧ 1 ≤ d ∧ d ≤ monthLen (isLeap y) mo ∧
      h ≤ 23 ∧ mi ≤ 59 ∧ sec ≤ 59) :
    parseDateTime (padNat 4 y ++ ('-' :: (padNat 2 mo ++ ('-' ::
      (padNat 2 d ++ ('T' :: (padNat 2 h ++ (':' :: (padNat 2 mi ++
      (':' :: (padNat 2 sec ++ ['Z']))))))))))) =
    some ((daysFromCivil y mo d * 86400 + h * 3600 + mi * 60 + sec) * 1000) := by
  rw [parseDateTime]
  rw [readNatFixed_padNat 4 0 _ _ hy]
  simp only [optionBind_some, zero_mul, zero_add]
  rw [expectChar_same]
  simp only [optionBind_some]
  rw [readNatFixed_padNat 2 0 _ _ hmo]
  simp only [optionBind_some, zero_mul, zero_add]
  rw [expectChar_same]
  simp only [optionBind_some]
  rw [readNatFixed_padNat 2 0 _ _ hd]
  simp only [optionBind_some, zero_mul, zero_add]
  rw [expectChar_same]
  simp only [optionBind_some]
  rw [readNatFixed_padNat 2 0 _ _ hh]
  simp only [optionBind_some, zero_mul, zero_add]
  rw [expectChar_same]
  simp only [optionBind_some]
  rw [readNatFixed_padNat 2 0 _ _ hmi]
  simp only [optionBind_some, zero_mul, zero_add]
  rw [expectChar_same]
  simp only [optionBind_some]
  rw [readNatFixed_padNat 2 0 _ _ hsec]
  simp only [optionBind_some, zero_mul, zero_add]
  show (if 1 ≤ mo ∧ mo ≤ 12 ∧ 1 ≤ d ∧ d ≤ monthLen (isLeap y) mo ∧
      h ≤ 23 ∧ mi ≤ 59 ∧ sec ≤ 59 then
    some ((daysFromCivil y mo d * 86400 + h * 3600 + mi * 60 + sec) * 1000 + 0)
  else none) = some ((daysFromCivil y mo d * 86400 + h * 3600 + mi * 60 + sec) * 1000)
  rw [if_pos hguard, Nat.add_zero]

set_option maxHeartbeats 3200000 in
/-- Helper: the parser on a well-formed datetime string with a 3-digit
fraction. -/
theorem parseDateTime_build3 (y mo d h mi sec ms : Nat)
    (hy : y < 10 ^ 4) (hmo : mo < 10 ^ 2) (hd : d < 10 ^ 2)
    (hh : h < 10 ^ 2) (hmi : mi < 10 ^ 2) (hsec : sec < 10 ^ 2)
    (hms : ms < 10 ^ 3)
    (hguard : 1 ≤ mo ∧ mo ≤ 12 ∧ 1 ≤ d ∧ d ≤ monthLen (isLeap y) mo ∧
      h ≤ 23 ∧ mi ≤ 59 ∧ sec ≤ 59) :
    parseDateTime (padNat 4 y ++ ('-' :: (padNat 2 mo ++ ('-' ::
      (padNat 2 d ++ ('T' :: (padNat 2 h ++ (':' :: (padNat 2 mi ++
      (':' :: (padNat 2 sec ++ ('.' :: (padNat 3 ms ++ ['Z']))))))))))))) =
    some ((daysFromCivil y mo d * 86400 + h * 3600 + mi * 60 + sec) * 1000 + ms) := by
  rw [parseDateTime]
  rw [readNatFixed_padNat 4 0 _ _ hy]
  simp only [optionBind_some, zero_mul, zero_add]
  rw [expectChar_same]
  simp only [optionBind_some]
  rw [readNatFixed_padNat 2 0 _ _ hmo]
  simp only [optionBind_some, zero_mul, zero_add]
  rw [expectChar_same]
  simp only [optionBind_some]
  rw [readNatFixed_padNat 2 0 _ _ hd]
  simp only [optionBind_some, zero_mul, zero_add]
  rw [expectChar_same]
  simp only [optionBind_some]
  rw [readNatFixed_padNat 2 0 _ _ hh]
  simp only [optionBind_some, zero_mul, zero_add]
  rw [expectChar_same]
  simp only [optionBind_some]
  rw [readNatFixed_padNat 2 0 _ _ hmi]
  simp only [optionBind_some, zero_mul, zero_add]
  rw [expectChar_same]
  simp only [optionBind_some]
  rw [readNatFixed_padNat 2 0 _ _ hsec]
  simp only [optionBind_some, zero_mul, zero_add]
  rw [show readNatFixed 3 0 (padNat 3 ms ++ ['Z']) = some (0 * 10 ^ 3 + ms, ['Z'])
    from readNatFixed_padNat 3 0 ms ['Z'] hms]
  simp only [optionBind_some, zero_mul, zero_add]
  show (if 1 ≤ mo ∧ mo ≤ 12 ∧ 1 ≤ d ∧ d ≤ monthLen (isLeap y) mo ∧
      h ≤ 23 ∧ mi ≤ 59 ∧ sec ≤ 59 then
    some ((daysFromCivil y mo d * 86400 + h * 3600 + mi * 60 + sec) * 1000 + ms)
  else none) = some ((daysFromCivil y mo d * 86400 + h * 3600 + mi * 60 + sec) * 1000 + ms)
  rw [if_pos hguard]

/-- Helper: the RFC 3339 parser inverts the formatter on every instant the
codec covers. -/
theorem parseDateTime_fmtDateTime (n : Nat) (hn : n < 253402300800000) :
    parseDateTime (fmtDateTime n) = some n := by
  have hdays : n / 86400000 < 2932897 := by omega
  obtain ⟨hy1, hy2, hm1, hm2, hd1, hd2, hback⟩ :=
    civilFromDays_correct (n / 86400000) hdays
  have hy4 : (civilFromDays (n / 86400000)).1 < 10 ^ 4 := by omega
  have hmo2 : (civilFromDays (n / 86400000)).2.1 < 10 ^ 2 := by omega
  have hd31 : (civilFromDays (n / 86400000)).2.2 ≤ 31 :=
    le_trans hd2 (monthLen_bounds _ _).2
  have hdd2 : (civilFromDays (n / 86400000)).2.2 < 10 ^ 2 := by omega
  have hh23 : n % 86400000 / 1000 / 3600 ≤ 23 := by omega
  have hh2 : n % 86400000 / 1000 / 3600 < 10 ^ 2 := by omega
  have hmi59 : n % 86400000 / 1000 % 3600 / 60 ≤ 59 := by omega
  have hmi2 : n % 86400000 / 1000 % 3600 / 60 < 10 ^ 2 := by omega
  have hsec59 : n % 86400000 / 1000 % 60 ≤ 59 := by omega
  have hsec2 : n % 86400000 / 1000 % 60 < 10 ^ 2 := by omega
  have hms3 : n % 86400000 % 1000 < 10 ^ 3 := by omega
  by_cases hms0 : n % 86400000 % 1000 = 0
  · have hfmt : fmtDateTime n =
        padNat 4 (civilFromDays (n / 86400000)).1 ++ ('-' ::
        (padNat 2 (civilFromDays (n / 86400000)).2.1 ++ ('-' ::
        (padNat 2 (civilFromDays (n / 86400000)).2.2 ++ ('T' ::
        (padNat 2 (n % 86400000 / 1000 / 3600) ++ (':' ::
        (padNat 2 (n % 86400000 / 1000 % 3600 / 60) ++ (':' ::
        (padNat 2 (n % 86400000 / 1000 % 60) ++ ['Z'])))))))))) := by
      rw [fmtDateTime, if_pos hms0]
      simp [List.append_assoc]
    rw [hfmt, parseDateTime_build0 _ _ _ _ _ _ hy4 hmo2 hdd2 hh2 hmi2 hsec2
      ⟨hm1, hm2, hd1, hd2, hh23, hmi59, hsec59⟩]
    congr 1
    rw [hback]
    omega
  · have hfmt : fmtDateTime n =
        padNat 4 (civilFromDays (n / 86400000)).1 ++ ('-' ::
        (padNat 2 (civilFromDays (n / 86400000)).2.1 ++ ('-' ::
        (padNat 2 (civilFromDays (n / 86400000)).2.2 ++ ('T' ::
        (padNat 2 (n % 86400000 / 1000 / 3600) ++ (':' ::
        (padNat 2 (n % 86400000 / 1000 % 3600 / 60) ++ (':' ::
        (padNat 2 (n % 86400000 / 1000 % 60) ++ ('.' ::
        (padNat 3 (n % 86400000 % 1000) ++ ['Z'])))))))))))) := by
      rw [fmtDateTime, if_neg hms0]
      simp [List.append_assoc]
    rw [hfmt, parseDateTime_build3 _ _ _ _ _ _ _ hy4 hmo2 hdd2 hh2 hmi2 hsec2
      hms3 ⟨hm1, hm2, hd1, hd2, hh23, hmi59, hsec59⟩]
    congr 1
    rw [hback]
    omega

/-- Helper: head lookup. -/
theorem jlookup_cons_eq (k : List Char) (v : Json)
    (rest : List (List Char × Json)) : jlookup ((k, v) :: rest) k = some v := by
  rw [jlookup, if_pos rfl]

/-- Helper: lookup skips a non-matching key. -/
theorem jlookup_cons_ne (k key : List Char) (v : Json)
    (rest : List (List Char × Json)) (h : ¬ k = key) :
    jlookup ((k, v) :: rest) key = jlookup rest key := by
  rw [jlookup, if_neg h]

/-- Helper: the datetime codec round-trips every in-range instant. -/
theorem dt_roundtrip (t : Int) (h : dtInRange t) :
    dtFromJson (dtToJson t) = some t := by
  obtain ⟨h0, h1⟩ := h
  show (parseDateTime (fmtDateTime t.toNat)).map (fun n => (n : Int)) = some t
  rw [parseDateTime_fmtDateTime t.toNat (by omega)]
  show some ((t.toNat : Int)) = some t
  rw [Int.toNat_of_nonneg h0]

/-- Helper: the `Submission` codec round-trips every in-range value. -/
theorem submission_roundtrip (sub : Submission) (h : subInRange sub) :
    submissionFromJson (submissionToJson sub) = some sub := by
  obtain ⟨h1, h2⟩ := h
  simp [submissionToJson, submissionFromJson, jlookup, strFromJson, natFromJson,
    dt_roundtrip sub.request_time h1, dt_roundtrip sub.file_time h2]

/-- Helper: the submission-list codec round-trips elementwise. -/
theorem submissionsFromJson_roundtrip :
    ∀ subs : List Submission, (∀ sub ∈ subs, subInRange sub) →
      submissionsFromJson (subs.map submissionToJson) = some subs := by
  intro subs
  induction subs with
  | nil =>
    intro _
    rfl
  | cons x xs ih =>
    intro h
    simp [submissionsFromJson, submission_roundtrip x (h x (List.mem_cons_self _ _)),
      ih (fun s hs => h s (List.mem_cons_of_mem _ hs))]

/-- C10: serializing a `Snapshot` and deserializing the result yields the
identical value — every field, including `capture_time`,
`capture_duration`, and every field of every nested `Submission` — for
every snapshot whose timestamps lie in the codec's 1970-9999 range. -/
theorem C10_snapshot_roundtrip (s : Snapshot) (hct : dtInRange s.capture_time)
    (hsubs : ∀ sub ∈ s.submissions, subInRange sub) :
    snapshotFromJson (snapshotToJson s) = some s := by
  simp [snapshotToJson, snapshotFromJson, jlookup, intFromJson,
    dt_roundtrip s.capture_time hct,
    submissionsFromJson_roundtrip s.submissions hsubs]

/-- Witness for C10: a concrete snapshot with a fractional capture time, a
negative duration and one submission round-trips exactly. -/
theorem C10_snapshot_roundtrip_witness :
    snapshotFromJson (snapshotToJson { capture_time := 1686830400123, capture_duration := -5, submissions := [{ request_time := 0, folder := "a/b".toList, file_time := 253402300799999, file_bytes := 3, pkg_name := "x".toList, pkg_version := "1.0".toList }] }) =
    some { capture_time := 1686830400123, capture_duration := -5, submissions := [{ request_time := 0, folder := "a/b".toList, file_time := 253402300799999, file_bytes := 3, pkg_name := "x".toList, pkg_version := "1.0".toList }] } :=
  C10_snapshot_roundtrip { capture_time := 1686830400123, capture_duration := -5, submissions := [{ request_time := 0, folder := "a/b".toList, file_time := 253402300799999, file_bytes := 3, pkg_name := "x".toList, pkg_version := "1.0".toList }] }
    (by decide)
    (by decide)
